import Mathlib

/-!
Shallow embedding of `gpu_wizard_execute` (`src/main.rs`) and verification of
its specification claims.

The program samples per-GPU telemetry (`parse_cuda_info`), selects qualifying
GPUs (`check_resource_enough`), waits for the selection to be stable across
`check_times` consecutive cycles (`wait_for_resource`), and then launches the
user command with environment overrides (`run_command`).  Effectful parts are
embedded as pure functions: the telemetry stream becomes an explicit list of
snapshots, text is handled as `List Char`, and Rust panics (`unwrap`,
out-of-range slicing, debug-mode integer underflow/overflow) become `none`.
-/

/-- `struct GPUInfo` from `src/main.rs` (fields in source order).
`gpu_free` is the free-utilization percentage, `memory_free` is free memory in
GiB after the parser's floor division. -/
structure GPUInfo where
  gpu_free : Nat
  index : Nat
  memory_free : Nat
deriving DecidableEq

/-- `struct Config` from `src/main.rs`. -/
structure Config where
  core_count : Nat
  memory_per_core : Nat
  gpu_percent : Nat
  check_times : Nat
  check_interval : Nat
  gpu_env : String
  set_envs : List String
  unset_envs : List String
deriving DecidableEq

/-- The per-field command-line overrides of `struct Cli` (the fields merged
into `Config` by `main`, lines 126-153; the remaining `Cli` fields do not
take part in the merge). -/
structure Cli where
  core_count : Option Nat
  memory_per_core : Option Nat
  gpu_percent : Option Nat
  check_times : Option Nat
  check_interval : Option Nat
  gpu_env : Option String
  set_envs : Option (List String)
  unset_envs : Option (List String)

/-- The per-field merge of `main` (lines 126-153): every scalar override, when
present, replaces the file-resolved value; the two `Vec` overrides are applied
only when non-empty (`if v.len() > 0`). -/
def mergeConfig (cli : Cli) (c0 : Config) : Config :=
  let c := c0
  let c := match cli.core_count with
    | some v => { c with core_count := v }
    | none => c
  let c := match cli.memory_per_core with
    | some v => { c with memory_per_core := v }
    | none => c
  let c := match cli.gpu_percent with
    | some v => { c with gpu_percent := v }
    | none => c
  let c := match cli.check_times with
    | some v => { c with check_times := v }
    | none => c
  let c := match cli.check_interval with
    | some v => { c with check_interval := v }
    | none => c
  let c := match cli.gpu_env with
    | some v => { c with gpu_env := v }
    | none => c
  let c := match cli.set_envs with
    | some v => if v.length > 0 then { c with set_envs := v } else c
    | none => c
  let c := match cli.unset_envs with
    | some v => if v.length > 0 then { c with unset_envs := v } else c
    | none => c
  c

/-! ### Text utilities (Rust `str` operations on `List Char`) -/

/-- Rust `str::split` with a one-character separator. -/
def splitOnChar (sep : Char) : List Char → List (List Char)
  | [] => [[]]
  | c :: rest =>
    if c = sep then
      [] :: splitOnChar sep rest
    else
      match splitOnChar sep rest with
      | [] => [[c]]
      | f :: fs => (c :: f) :: fs

/-- Rust `line.split(", ")` (the two-character separator used by
`parse_cuda_info`): split at each non-overlapping occurrence of `", "`,
scanning left to right. -/
def splitCommaSpace : List Char → List (List Char)
  | [] => [[]]
  | ',' :: ' ' :: rest => [] :: splitCommaSpace rest
  | c :: rest =>
    match splitCommaSpace rest with
    | [] => [[c]]
    | f :: fs => (c :: f) :: fs

/-- Rust `str::parse::<uint>` for an unsigned integer type whose values are
`< bound`: an optional leading `+`, then at least one digit, and the value
must fit in the type (overflow is a parse error). -/
def rustParseUInt (bound : Nat) (cs : List Char) : Option Nat :=
  let ds := match cs with
    | '+' :: rest => rest
    | _ => cs
  if ds.isEmpty then none
  else if ds.all Char.isDigit then
    let v := ds.foldl (fun a c => a * 10 + (c.toNat - 48)) 0
    if v < bound then some v else none
  else none

/-- `str::parse::<usize>` (64-bit). -/
def rustParseUsize (cs : List Char) : Option Nat := rustParseUInt (2 ^ 64) cs

/-- `str::parse::<u32>`. -/
def rustParseU32 (cs : List Char) : Option Nat := rustParseUInt (2 ^ 32) cs

/-! ### `parse_cuda_info` (lines 194-226)

Each line `"<index>, <busy> %, <mib> MiB"` is split on `", "`; the first three
fields are consumed (`field_it.next().unwrap()` three times), the percent
field loses its last 2 bytes (`" %"`), the memory field its last 4 bytes
(`" MiB"`).  Any panic — missing field, failed parse, slice out of range, or
the debug-mode underflow of `100 - gpu_percent` — is modelled as `none`. -/

/-- Parse the free-memory field `"<mib> MiB"`: strip the last 4 bytes and
parse as `u32` (a field shorter than 4 bytes makes the slice panic). -/
def parseMemField (cs : List Char) : Option Nat :=
  if 4 ≤ cs.length then rustParseU32 (cs.take (cs.length - 4)) else none

/-- Parse the utilization field `"<busy> %"`: strip the last 2 bytes and
parse as `usize`. -/
def parsePercentField (cs : List Char) : Option Nat :=
  if 2 ≤ cs.length then rustParseUsize (cs.take (cs.length - 2)) else none

/-- Parse one non-empty telemetry line into a `GPUInfo`. -/
def parse_gpu_line (line : List Char) : Option GPUInfo :=
  match splitCommaSpace line with
  | f0 :: f1 :: f2 :: _ =>
    match rustParseUsize f0, parsePercentField f1, parseMemField f2 with
    | some index, some gpu_percent, some memory_free =>
      if gpu_percent ≤ 100 then
        some { index := index, gpu_free := 100 - gpu_percent,
               memory_free := memory_free / 1024 }
      else none
    | _, _, _ => none
  | _ => none

/-- The mebibyte value reported in a line's free-memory field (the value the
parser divides by 1024). -/
def memMiB (line : List Char) : Option Nat :=
  match splitCommaSpace line with
  | _ :: _ :: f2 :: _ => parseMemField f2
  | _ => none

/-- The line loop of `parse_cuda_info`: records accumulate until the first
empty line (`if line.len() == 0 { break; }`) or the end of the split; a
malformed record panics (`none`). -/
def parseLines : List (List Char) → Option (List GPUInfo)
  | [] => some []
  | line :: rest =>
    if line = [] then some []
    else
      match parse_gpu_line line with
      | none => none
      | some u => (parseLines rest).map (u :: ·)

/-- `parse_cuda_info` on the captured stdout text of the telemetry tool. -/
def parse_cuda_info (stdout : String) : Option (List GPUInfo) :=
  parseLines (splitOnChar '\n' stdout.data)

/-! ### `check_resource_enough` (lines 228-250) -/

/-- The `available_gpu` accumulation loop (lines 234-239): each GPU passing
both threshold gates contributes its `(index, gpu_free)` pair. -/
def availableGpu (l : List GPUInfo) (memory_per_core gpu_percent : Nat) :
    List (Nat × Nat) :=
  (l.filter fun g =>
      decide (memory_per_core ≤ g.memory_free ∧ gpu_percent ≤ g.gpu_free)).map
    fun g => (g.index, g.gpu_free)

/-- The sort order of `available_gpu.sort_by_key(|x| 100 - x.1)`: ascending in
the key `100 - gpu_free`.  Rust's `sort_by_key` is a stable sort, embedded
here as the (stable) `List.insertionSort`. -/
def rankLe (a b : Nat × Nat) : Prop := 100 - a.2 ≤ 100 - b.2

instance : DecidableRel rankLe := fun a b => by
  unfold rankLe; infer_instance

instance : IsTotal (Nat × Nat) rankLe :=
  ⟨fun a b => Nat.le_total (100 - a.2) (100 - b.2)⟩

instance : IsTrans (Nat × Nat) rankLe :=
  ⟨fun _ _ _ h1 h2 => Nat.le_trans h1 h2⟩

/-- `check_resource_enough`: if at least `core_count` GPUs qualify, sort them
stably by descending free utilization, render the indices as strings and
return the first `core_count` of them; otherwise return `none`. -/
def check_resource_enough (gpu_info_list : List GPUInfo) (core_count : Nat)
    (memory_per_core : Nat) (gpu_percent : Nat) : Option (List String) :=
  if core_count ≤ (availableGpu gpu_info_list memory_per_core gpu_percent).length then
    some (((((availableGpu gpu_info_list memory_per_core gpu_percent).insertionSort
      rankLe).map fun x => toString x.1)).take core_count)
  else
    none

/-! ### `wait_for_resource` (lines 252-277)

The unbounded polling loop is embedded along a finite stream of telemetry
snapshots (one per sampling cycle).  The result `some (n, gpus)` means the
loop returns `gpus` on the cycle with 0-based index `n`; `none` means the
stream was exhausted without admission. -/

def wait_for_resource (core_count memory_per_core gpu_percent cum_count : Nat) :
    List (List GPUInfo) → Nat → Option (Nat × List String)
  | [], _ => none
  | snap :: rest, cur_count =>
    match check_resource_enough snap core_count memory_per_core gpu_percent with
    | some gpus =>
      if cum_count ≤ cur_count + 1 then some (0, gpus)
      else
        (wait_for_resource core_count memory_per_core gpu_percent cum_count
            rest (cur_count + 1)).map
          fun p => (p.1 + 1, p.2)
    | none =>
      (wait_for_resource core_count memory_per_core gpu_percent cum_count
          rest 0).map
        fun p => (p.1 + 1, p.2)

/-- The same loop over the per-cycle Selector outcomes alone (the only part of
a snapshot `wait_for_resource` inspects). -/
def admitLoop {α : Type} (cum_count : Nat) :
    List (Option α) → Nat → Option (Nat × α)
  | [], _ => none
  | r :: rest, cur_count =>
    match r with
    | some gpus =>
      if cum_count ≤ cur_count + 1 then some (0, gpus)
      else (admitLoop cum_count rest (cur_count + 1)).map fun p => (p.1 + 1, p.2)
    | none => (admitLoop cum_count rest 0).map fun p => (p.1 + 1, p.2)

/-- The sequence of Selector outcomes along a snapshot stream. -/
def cycleResults (core_count memory_per_core gpu_percent : Nat)
    (snaps : List (List GPUInfo)) : List (Option (List String)) :=
  snaps.map fun s => check_resource_enough s core_count memory_per_core gpu_percent

/-- Cycle `n` completes a window of `cum` consecutive sufficient cycles, given
that `cur` consecutive sufficient cycles immediately precede the stream:
the counter value reaches `cum` at `n`, i.e. `cum ≤ cur + n + 1` and every
cycle in the last `cum` cycles up to `n` is sufficient. -/
def windowSuff {α : Type} (cum cur : Nat) (rs : List (Option α)) (n : Nat) : Prop :=
  cum ≤ cur + n + 1 ∧ ∀ i ≤ n, n + 1 - cum ≤ i → (rs.getD i none).isSome = true

instance windowSuffDecidable {α : Type} (cum cur : Nat) (rs : List (Option α))
    (n : Nat) : Decidable (windowSuff cum cur rs n) :=
  decidable_of_iff
    (cum ≤ cur + n + 1 ∧ ∀ i ≤ n, n + 1 - cum ≤ i → (rs.getD i none).isSome = true)
    Iff.rfl

/-! ### `run_command` (lines 279-307)

The pure part of the Launcher: the command specification it hands to the OS
(program, arguments, environment insertions in application order, environment
removals).  Spawning, waiting and exit-code propagation are effectful and not
modelled. -/

structure CommandSpec where
  program : String
  args : List String
  envSets : List (String × String)
  envRemoves : List String
deriving DecidableEq

/-- Rust `s.splitn(2, "=")`: at most two pieces, split at the first `=`. -/
def splitn2Eq : List Char → List (List Char)
  | [] => [[]]
  | c :: rest =>
    if c = '=' then [[], rest]
    else
      match splitn2Eq rest with
      | [] => [[c]]
      | f :: fs => (c :: f) :: fs

/-- `run_command`: run `sh -c <cmd>` with `gpu_env` set to the joined GPU
list, each well-formed `name=value` entry of `env` applied (a malformed entry
is warned about and skipped), and each name of `env_clear` removed. -/
def run_command (cmd : String) (gpus : String) (gpu_env : String)
    (env : List String) (env_clear : List String) : CommandSpec :=
  { program := "sh"
    args := ["-c", cmd]
    envSets :=
      (gpu_env, gpus) ::
        env.filterMap fun s =>
          match splitn2Eq s.data with
          | [k, v] => some (String.mk k, String.mk v)
          | _ => none
    envRemoves := env_clear }

/-- `default_config` (lines 309-320). -/
def default_config : Config :=
  { core_count := 1
    memory_per_core := 1
    gpu_percent := 50
    check_times := 1
    check_interval := 15
    gpu_env := "CUDA_VISIBLE_DEVICES"
    set_envs := []
    unset_envs := [] }

/-! ### Helper lemmas -/

lemma availableGpu_mem_spec {l : List GPUInfo} {mem pct : Nat} {p : Nat × Nat}
    (hp : p ∈ availableGpu l mem pct) :
    ∃ u ∈ l, p = (u.index, u.gpu_free) ∧ mem ≤ u.memory_free ∧ pct ≤ u.gpu_free := by
  simp only [availableGpu, List.mem_map, List.mem_filter, decide_eq_true_eq] at hp
  obtain ⟨u, ⟨hul, hq⟩, hpu⟩ := hp
  exact ⟨u, hul, hpu.symm, hq⟩

lemma availableGpu_length (l : List GPUInfo) (mem pct : Nat) :
    (availableGpu l mem pct).length =
      (l.filter fun u => decide (mem ≤ u.memory_free ∧ pct ≤ u.gpu_free)).length := by
  simp [availableGpu]

/-- C2: for every list of unit records and every thresholds, the Selector
never includes in a returned selection a unit whose free memory is below
`required_memory` or whose free utilization is below `required_free_percent`:
every returned id is the id of a unit of the snapshot that satisfies both
threshold inequalities (a unit qualifies iff `memory_free ≥ required_memory`
and `utilization_free ≥ required_free_percent`). -/
theorem check_resource_enough_qualification (l : List GPUInfo)
    (core_count memory_per_core gpu_percent : Nat) (sel : List String)
    (h : check_resource_enough l core_count memory_per_core gpu_percent = some sel) :
    ∀ s ∈ sel, ∃ u ∈ l, s = toString u.index ∧
      memory_per_core ≤ u.memory_free ∧ gpu_percent ≤ u.gpu_free := by
  intro s hs
  unfold check_resource_enough at h
  split at h
  · obtain rfl : _ = sel := Option.some.inj h
    have hs' := List.mem_of_mem_take hs
    obtain ⟨p, hp, rfl⟩ := List.mem_map.mp hs'
    have hpa : p ∈ availableGpu l memory_per_core gpu_percent :=
      (List.mem_insertionSort rankLe).mp hp
    obtain ⟨u, hul, hpu, hmem, hpct⟩ := availableGpu_mem_spec hpa
    exact ⟨u, hul, by rw [hpu], hmem, hpct⟩
  · exact absurd h (by simp)

theorem check_resource_enough_qualification_witness :
    ∃ u ∈ [(⟨90, 7, 3⟩ : GPUInfo)], "7" = toString u.index ∧
      1 ≤ u.memory_free ∧ 50 ≤ u.gpu_free :=
  check_resource_enough_qualification [⟨90, 7, 3⟩] 1 1 50 ["7"] (by decide)
    "7" (by decide)

/-- C3: if fewer than `required_count` units qualify the Selector returns
`none` (insufficient, no partial result); otherwise it returns a list of
exactly `required_count` unit ids. -/
theorem check_resource_enough_count (l : List GPUInfo)
    (core_count memory_per_core gpu_percent : Nat) :
    ((l.filter fun u =>
        decide (memory_per_core ≤ u.memory_free ∧ gpu_percent ≤ u.gpu_free)).length
          < core_count →
      check_resource_enough l core_count memory_per_core gpu_percent = none) ∧
    (core_count ≤ (l.filter fun u =>
        decide (memory_per_core ≤ u.memory_free ∧ gpu_percent ≤ u.gpu_free)).length →
      ∃ sel, check_resource_enough l core_count memory_per_core gpu_percent = some sel ∧
        sel.length = core_count) := by
  have hlen := availableGpu_length l memory_per_core gpu_percent
  constructor
  · intro hlt
    unfold check_resource_enough
    rw [if_neg (by omega)]
  · intro hge
    unfold check_resource_enough
    rw [if_pos (by omega)]
    refine ⟨_, rfl, ?_⟩
    rw [List.length_take, List.length_map, List.length_insertionSort]
    omega

theorem check_resource_enough_count_witness :
    check_resource_enough [] 3 0 0 = none :=
  (check_resource_enough_count [] 3 0 0).1 (by decide)

/-- C5: every parsed free-memory value is the reported mebibyte count floor-
divided by 1024 (`1024 * gib ≤ mib < 1024 * gib + 1024`); in particular a
line reporting `"8191 MiB"` parses to 7 GiB, not 8, and `"16384 MiB"` parses
to 16 GiB. -/
theorem parse_cuda_info_memory_floor (line : List Char) (u : GPUInfo)
    (h : parse_gpu_line line = some u) :
    (∃ v, memMiB line = some v ∧
      1024 * u.memory_free ≤ v ∧ v < 1024 * u.memory_free + 1024) ∧
    parse_gpu_line "0, 0 %, 8191 MiB".data = some ⟨100, 0, 7⟩ ∧
    parse_gpu_line "0, 0 %, 16384 MiB".data = some ⟨100, 0, 16⟩ := by
  refine ⟨?_, by decide, by decide⟩
  unfold parse_gpu_line at h
  split at h
  case h_2 => exact absurd h (by simp)
  case h_1 f0 f1 f2 tail heq =>
    revert h
    split
    case h_2 => intro h; exact absurd h (by simp)
    case h_1 index gpu_percent memory_free hidx hpct hmem =>
      intro h
      split at h
      · obtain rfl : _ = u := Option.some.inj h
        refine ⟨memory_free, ?_, ?_, ?_⟩
        · rw [memMiB, heq]
          exact hmem
        · show 1024 * (memory_free / 1024) ≤ memory_free
          omega
        · show memory_free < 1024 * (memory_free / 1024) + 1024
          omega
      · exact absurd h (by simp)

theorem parse_cuda_info_memory_floor_witness :
    ∃ v, memMiB "0, 0 %, 8191 MiB".data = some v ∧
      1024 * 7 ≤ v ∧ v < 1024 * 7 + 1024 :=
  (parse_cuda_info_memory_floor "0, 0 %, 8191 MiB".data ⟨100, 0, 7⟩ (by decide)).1

lemma splitn2Eq_of_no_eq : ∀ cs : List Char, '=' ∉ cs → splitn2Eq cs = [cs]
  | [], _ => rfl
  | c :: rest, h => by
    have hc : ¬ c = '=' := fun hcc => h (hcc ▸ List.mem_cons_self c rest)
    have hrest : splitn2Eq rest = [rest] :=
      splitn2Eq_of_no_eq rest fun hm => h (List.mem_cons_of_mem c hm)
    simp [splitn2Eq, hc, hrest]

/-- C6: the Launcher splits each `extra_env_set` entry on the first `=` only
(`"FOO=bar=baz"` becomes name `FOO`, value `bar=baz` and is applied), while an
entry without `=` is skipped with a warning: the built command is the same as
if the entry were absent, all other entries are still applied, and the command
(`sh -c <cmd>`) still launches. -/
theorem run_command_env_split (cmd gpus gpu_env : String)
    (pre post : List String) (s : String) (env_clear : List String)
    (hs : '=' ∉ s.data) :
    run_command cmd gpus gpu_env (pre ++ s :: post) env_clear =
      run_command cmd gpus gpu_env (pre ++ post) env_clear ∧
    (run_command cmd gpus gpu_env (pre ++ s :: post) env_clear).program = "sh" ∧
    (run_command cmd gpus gpu_env (pre ++ s :: post) env_clear).args = ["-c", cmd] ∧
    run_command "cmd" "0" "ENV" ["FOO=bar=baz"] [] =
      { program := "sh", args := ["-c", "cmd"],
        envSets := [("ENV", "0"), ("FOO", "bar=baz")], envRemoves := [] } := by
  refine ⟨?_, rfl, rfl, by decide⟩
  simp [run_command, List.filterMap_append, splitn2Eq_of_no_eq s.data hs]

theorem run_command_env_split_witness :
    run_command "c" "0" "E" (["A=1"] ++ "FOO" :: ["B=2"]) [] =
      run_command "c" "0" "E" (["A=1"] ++ ["B=2"]) [] :=
  (run_command_env_split "c" "0" "E" ["A=1"] ["B=2"] "FOO" [] (by decide)).1

/-- C7 counterexample: with `required_count = 0` but `check_times = 2`, the
Selector is sufficient (with the empty set) on every cycle, yet the admission
loop does not admit on the very first cycle: on a two-cycle stream it admits
on the second cycle (index 1), and on a one-cycle stream it does not admit at
all. -/
theorem zero_core_first_cycle_counterexample :
    check_resource_enough [] 0 0 0 = some [] ∧
    wait_for_resource 0 0 0 2 [[], []] 0 = some (1, []) ∧
    wait_for_resource 0 0 0 2 [[]] 0 = none := by
  decide

/-- C7 (amended): for `required_count = 0` and every snapshot (including an
empty one) the Selector returns a sufficient result with an empty unit-id
list, and the admission loop admits on the very first cycle whenever
`check_times ≤ 1`. -/
theorem zero_core_fast_path (memory_per_core gpu_percent cum_count : Nat)
    (snap : List GPUInfo) (rest : List (List GPUInfo)) :
    check_resource_enough snap 0 memory_per_core gpu_percent = some [] ∧
    (cum_count ≤ 1 →
      wait_for_resource 0 memory_per_core gpu_percent cum_count (snap :: rest) 0 =
        some (0, [])) := by
  have hc : check_resource_enough snap 0 memory_per_core gpu_percent = some [] := by
    unfold check_resource_enough
    rw [if_pos (Nat.zero_le _)]
    simp
  refine ⟨hc, fun hcum => ?_⟩
  unfold wait_for_resource
  rw [hc]
  simp only []
  rw [if_pos (by omega)]

theorem zero_core_fast_path_witness :
    wait_for_resource 0 0 0 1 [[]] 0 = some (0, []) :=
  (zero_core_fast_path 0 0 1 [] []).2 (by decide)

lemma wait_for_resource_zero_eq_one_aux (core_count memory_per_core gpu_percent : Nat)
    (snaps : List (List GPUInfo)) :
    ∀ cur, wait_for_resource core_count memory_per_core gpu_percent 0 snaps cur =
      wait_for_resource core_count memory_per_core gpu_percent 1 snaps cur := by
  induction snaps with
  | nil => intro cur; rfl
  | cons snap rest ih =>
    intro cur
    unfold wait_for_resource
    cases h : check_resource_enough snap core_count memory_per_core gpu_percent with
    | some gpus => simp
    | none => simp [ih 0]

/-- C10: the admission loop with `check_times = 0` behaves identically to
`check_times = 1` on every sequence of snapshots: both admit at the first
sufficient cycle with that cycle's candidate set (nothing rejects
`check_times = 0`; the counter test `cur_count + 1 ≥ cum_count` passes
immediately in both cases). -/
theorem wait_for_resource_zero_eq_one (core_count memory_per_core gpu_percent : Nat)
    (snaps : List (List GPUInfo)) :
    wait_for_resource core_count memory_per_core gpu_percent 0 snaps 0 =
      wait_for_resource core_count memory_per_core gpu_percent 1 snaps 0 ∧
    (∀ snap rest gpus,
      check_resource_enough snap core_count memory_per_core gpu_percent = some gpus →
      wait_for_resource core_count memory_per_core gpu_percent 0 (snap :: rest) 0 =
          some (0, gpus) ∧
      wait_for_resource core_count memory_per_core gpu_percent 1 (snap :: rest) 0 =
          some (0, gpus)) := by
  refine ⟨wait_for_resource_zero_eq_one_aux _ _ _ snaps 0, ?_⟩
  intro snap rest gpus h
  constructor <;> (unfold wait_for_resource; rw [h]; simp)

theorem wait_for_resource_zero_eq_one_witness :
    wait_for_resource 0 0 0 0 [[]] 0 = some (0, []) ∧
    wait_for_resource 0 0 0 1 [[]] 0 = some (0, []) :=
  (wait_for_resource_zero_eq_one 0 0 0 [[]]).2 [] [] [] (by decide)

lemma availableGpu_snd_le {l : List GPUInfo} {mem pct : Nat}
    (h100 : ∀ u ∈ l, u.gpu_free ≤ 100) :
    ∀ p ∈ availableGpu l mem pct, p.2 ≤ 100 := by
  intro p hp
  obtain ⟨u, hul, hpu, _⟩ := availableGpu_mem_spec hp
  rw [hpu]
  exact h100 u hul

/-- C4: with at least `required_count` qualifying units (and in-range free
percentages, as the data model guarantees), the Selector returns the first
`required_count` ids of a ranking of the qualifying units that is a
permutation of them, descending in `utilization_free_percent`, and stable
(any pair already in descending-or-equal order — in particular any tie —
keeps its original snapshot order); the selection depends on the snapshot
only through the `(id, free_percent)` pairs of the qualifying units, so
`memory_free_gib` is never used for ranking; in particular units
`[(id 0, free 30), (id 1, free 90), (id 2, free 90), (id 3, free 50)]` with
`required_count = 2` and zero thresholds select `["1", "2"]`. -/
theorem check_resource_enough_ranking (l : List GPUInfo)
    (core_count memory_per_core gpu_percent : Nat)
    (h100 : ∀ u ∈ l, u.gpu_free ≤ 100)
    (hcount : core_count ≤ (availableGpu l memory_per_core gpu_percent).length) :
    (∃ ranked : List (Nat × Nat),
      check_resource_enough l core_count memory_per_core gpu_percent =
        some ((ranked.map fun x => toString x.1).take core_count) ∧
      ranked.Perm (availableGpu l memory_per_core gpu_percent) ∧
      ranked.Pairwise (fun a b => b.2 ≤ a.2) ∧
      (∀ a b : Nat × Nat,
        [a, b].Sublist (availableGpu l memory_per_core gpu_percent) →
        b.2 ≤ a.2 → [a, b].Sublist ranked)) ∧
    (∀ l' : List GPUInfo,
      availableGpu l' memory_per_core gpu_percent =
        availableGpu l memory_per_core gpu_percent →
      check_resource_enough l' core_count memory_per_core gpu_percent =
        check_resource_enough l core_count memory_per_core gpu_percent) ∧
    check_resource_enough [⟨30, 0, 0⟩, ⟨90, 1, 0⟩, ⟨90, 2, 0⟩, ⟨50, 3, 0⟩] 2 0 0 =
      some ["1", "2"] := by
  refine ⟨⟨(availableGpu l memory_per_core gpu_percent).insertionSort rankLe,
      ?_, ?_, ?_, ?_⟩, ?_, by decide⟩
  · unfold check_resource_enough
    rw [if_pos hcount]
  · exact List.perm_insertionSort rankLe _
  · have hs : (List.insertionSort rankLe
        (availableGpu l memory_per_core gpu_percent)).Pairwise rankLe :=
      List.sorted_insertionSort rankLe _
    refine hs.imp_of_mem ?_
    intro a b ha hb hab
    have ha' := availableGpu_snd_le h100 a
      ((List.mem_insertionSort rankLe).mp ha)
    have hb' := availableGpu_snd_le h100 b
      ((List.mem_insertionSort rankLe).mp hb)
    have : 100 - a.2 ≤ 100 - b.2 := hab
    omega
  · intro a b hsub hle
    exact List.pair_sublist_insertionSort
      (show rankLe a b from Nat.sub_le_sub_left hle 100) hsub
  · intro l' he
    unfold check_resource_enough
    rw [he]

theorem check_resource_enough_ranking_witness :
    check_resource_enough [⟨30, 0, 0⟩, ⟨90, 1, 0⟩, ⟨90, 2, 0⟩, ⟨50, 3, 0⟩] 2 0 0 =
      some ["1", "2"] :=
  (check_resource_enough_ranking [⟨30, 0, 0⟩, ⟨90, 1, 0⟩, ⟨90, 2, 0⟩, ⟨50, 3, 0⟩]
    2 0 0 (by decide) (by decide)).2.2

lemma mergeConfig_eq (cli : Cli) (c : Config) :
    mergeConfig cli c =
      { core_count := cli.core_count.getD c.core_count,
        memory_per_core := cli.memory_per_core.getD c.memory_per_core,
        gpu_percent := cli.gpu_percent.getD c.gpu_percent,
        check_times := cli.check_times.getD c.check_times,
        check_interval := cli.check_interval.getD c.check_interval,
        gpu_env := cli.gpu_env.getD c.gpu_env,
        set_envs := match cli.set_envs with
          | some v => if v.length > 0 then v else c.set_envs
          | none => c.set_envs,
        unset_envs := match cli.unset_envs with
          | some v => if v.length > 0 then v else c.unset_envs
          | none => c.unset_envs } := by
  obtain ⟨cc, mpc, gp, ct, ci, ge, se, ue⟩ := cli
  cases cc <;> cases mpc <;> cases gp <;> cases ct <;> cases ci <;> cases ge <;>
    cases se <;> cases ue <;> (dsimp only [mergeConfig]; first | rfl | (split_ifs <;> rfl))

/-- C8: for every configuration field, a present command-line override wins
over the file-resolved value and an absent override leaves it untouched, for
all eight merged fields; for the two list-valued fields (`set_envs`,
`unset_envs`) a present override always carries at least one element (clap
yields `Some` only when the flag occurs, and each occurrence contributes a
value), and any such override wins. -/
theorem mergeConfig_precedence (cli : Cli) (c : Config) :
    (mergeConfig cli c).core_count = cli.core_count.getD c.core_count ∧
    (mergeConfig cli c).memory_per_core = cli.memory_per_core.getD c.memory_per_core ∧
    (mergeConfig cli c).gpu_percent = cli.gpu_percent.getD c.gpu_percent ∧
    (mergeConfig cli c).check_times = cli.check_times.getD c.check_times ∧
    (mergeConfig cli c).check_interval = cli.check_interval.getD c.check_interval ∧
    (mergeConfig cli c).gpu_env = cli.gpu_env.getD c.gpu_env ∧
    (∀ v, cli.set_envs = some v → v ≠ [] → (mergeConfig cli c).set_envs = v) ∧
    (cli.set_envs = none → (mergeConfig cli c).set_envs = c.set_envs) ∧
    (∀ v, cli.unset_envs = some v → v ≠ [] → (mergeConfig cli c).unset_envs = v) ∧
    (cli.unset_envs = none → (mergeConfig cli c).unset_envs = c.unset_envs) := by
  rw [mergeConfig_eq]
  refine ⟨rfl, rfl, rfl, rfl, rfl, rfl, ?_, ?_, ?_, ?_⟩
  · intro v hv hne
    simp [hv, List.length_pos.mpr hne]
  · intro hv; simp [hv]
  · intro v hv hne
    simp [hv, List.length_pos.mpr hne]
  · intro hv; simp [hv]

theorem mergeConfig_precedence_witness :
    (mergeConfig ⟨some 5, none, none, none, none, none, some ["X=1"], none⟩
        default_config).core_count = 5 ∧
    (mergeConfig ⟨some 5, none, none, none, none, none, some ["X=1"], none⟩
        default_config).set_envs = ["X=1"] ∧
    (mergeConfig ⟨some 5, none, none, none, none, none, some ["X=1"], none⟩
        default_config).unset_envs = [] :=
  ⟨(mergeConfig_precedence ⟨some 5, none, none, none, none, none, some ["X=1"], none⟩
      default_config).1,
   (mergeConfig_precedence ⟨some 5, none, none, none, none, none, some ["X=1"], none⟩
      default_config).2.2.2.2.2.2.1 ["X=1"] rfl (by decide),
   (mergeConfig_precedence ⟨some 5, none, none, none, none, none, some ["X=1"], none⟩
      default_config).2.2.2.2.2.2.2.2.2 rfl⟩

lemma splitOnChar_cons_sep (sep : Char) (rest : List Char) :
    splitOnChar sep (sep :: rest) = [] :: splitOnChar sep rest := by
  rw [splitOnChar.eq_def]
  simp

lemma splitOnChar_cons_ne (sep c : Char) (rest : List Char) (hc : ¬ c = sep) :
    splitOnChar sep (c :: rest) =
      match splitOnChar sep rest with
      | [] => [[c]]
      | f :: fs => (c :: f) :: fs := by
  rw [splitOnChar.eq_def]
  simp [hc]

lemma splitOnChar_ne_nil (sep : Char) : ∀ cs : List Char, splitOnChar sep cs ≠ []
  | [], h => by simp [splitOnChar] at h
  | c :: rest, h => by
    by_cases hc : c = sep
    · rw [hc, splitOnChar_cons_sep] at h
      exact absurd h (by simp)
    · rw [splitOnChar_cons_ne sep c rest hc] at h
      revert h
      cases splitOnChar sep rest <;> simp

lemma splitOnChar_append_sep (sep : Char) :
    ∀ a b : List Char,
      splitOnChar sep (a ++ sep :: b) = splitOnChar sep a ++ splitOnChar sep b
  | [], b => by
    rw [List.nil_append, splitOnChar_cons_sep]
    rfl
  | c :: a', b => by
    by_cases hc : c = sep
    · subst hc
      rw [List.cons_append, splitOnChar_cons_sep, splitOnChar_cons_sep,
        splitOnChar_append_sep c a' b]
      simp
    · obtain ⟨f, fs, hfs⟩ : ∃ f fs, splitOnChar sep a' = f :: fs := by
        cases h : splitOnChar sep a' with
        | nil => exact absurd h (splitOnChar_ne_nil sep a')
        | cons f fs => exact ⟨f, fs, rfl⟩
      rw [List.cons_append, splitOnChar_cons_ne sep c _ hc,
        splitOnChar_cons_ne sep c a' hc, splitOnChar_append_sep sep a' b, hfs]
      simp

/-- C9: parsing returns exactly the records preceding the first empty line:
an empty line anywhere in the split output — not only a trailing one —
terminates the line loop without error and silently drops everything after
it; any text after a double newline is ignored; concretely, a valid-looking
record after a mid-text empty line does not appear in the snapshot. -/
theorem parse_cuda_info_stops_at_empty_line (pre post : List (List Char))
    (t r : List Char) :
    parseLines (pre ++ [] :: post) = parseLines pre ∧
    parse_cuda_info (String.mk (t ++ '\n' :: '\n' :: r)) =
      parseLines (splitOnChar '\n' t) ∧
    parse_cuda_info "0, 10 %, 2048 MiB\n\n1, 90 %, 4096 MiB" =
      some [⟨90, 0, 2⟩] := by
  have hgen : ∀ pre post : List (List Char),
      parseLines (pre ++ [] :: post) = parseLines pre := by
    intro pre
    induction pre with
    | nil => intro post; rfl
    | cons line rest ih =>
      intro post
      by_cases hl : line = []
      · simp [parseLines, hl]
      · cases h : parse_gpu_line line <;> simp [parseLines, hl, h, ih]
  refine ⟨hgen pre post, ?_, by decide⟩
  show parseLines (splitOnChar '\n' (t ++ '\n' :: '\n' :: r)) = _
  rw [splitOnChar_append_sep '\n' t ('\n' :: r)]
  have : splitOnChar '\n' ('\n' :: r) = [] :: splitOnChar '\n' r := by
    rw [splitOnChar.eq_def]
    simp
  rw [this, hgen]

lemma windowSuff_zero_cons_some {α : Type} {cum cur : Nat} (g0 : α)
    (rs : List (Option α)) (h : cum ≤ cur + 1) :
    windowSuff cum cur (some g0 :: rs) 0 := by
  refine ⟨by omega, ?_⟩
  intro i hi _
  have hi0 : i = 0 := Nat.le_zero.mp hi
  subst hi0
  simp

lemma windowSuff_zero_cons_none {α : Type} {cum cur : Nat} (hk : 1 ≤ cum)
    (rs : List (Option α)) : ¬ windowSuff cum cur ((none : Option α) :: rs) 0 := by
  rintro ⟨h1, h2⟩
  have := h2 0 (Nat.le_refl 0) (by omega)
  simp at this

lemma windowSuff_cons_some {α : Type} (cum cur : Nat) (g0 : α)
    (rs : List (Option α)) (n : Nat) (hn : 1 ≤ n) :
    windowSuff cum cur (some g0 :: rs) n ↔ windowSuff cum (cur + 1) rs (n - 1) := by
  constructor
  · rintro ⟨h1, h2⟩
    refine ⟨by omega, ?_⟩
    intro j hj hjl
    have := h2 (j + 1) (by omega) (by omega)
    simpa [List.getD_cons_succ] using this
  · rintro ⟨h1, h2⟩
    refine ⟨by omega, ?_⟩
    intro i hi hil
    cases i with
    | zero => simp
    | succ j =>
      rw [List.getD_cons_succ]
      exact h2 j (by omega) (by omega)

lemma windowSuff_cons_none {α : Type} (cum cur : Nat) (_hk : 1 ≤ cum)
    (rs : List (Option α)) (n : Nat) (hn : 1 ≤ n) :
    windowSuff cum cur ((none : Option α) :: rs) n ↔ windowSuff cum 0 rs (n - 1) := by
  constructor
  · rintro ⟨h1, h2⟩
    by_cases hcn : cum ≤ n
    · refine ⟨by omega, ?_⟩
      intro j hj hjl
      have := h2 (j + 1) (by omega) (by omega)
      simpa [List.getD_cons_succ] using this
    · exfalso
      have := h2 0 (by omega) (by omega)
      simp at this
  · rintro ⟨h1, h2⟩
    refine ⟨by omega, ?_⟩
    intro i hi hil
    cases i with
    | zero => exfalso; omega
    | succ j =>
      rw [List.getD_cons_succ]
      exact h2 j (by omega) (by omega)

lemma admitLoop_eq_some_iff {α : Type} {cum : Nat} (hk : 1 ≤ cum)
    (rs : List (Option α)) : ∀ (cur n : Nat) (g : α),
    (admitLoop cum rs cur = some (n, g) ↔
      rs.getD n none = some g ∧ windowSuff cum cur rs n ∧
      ∀ m < n, ¬ windowSuff cum cur rs m) := by
  induction rs with
  | nil =>
    intro cur n g
    simp [admitLoop]
  | cons r rest ih =>
    intro cur n g
    cases r with
    | some g0 =>
      have hred : admitLoop cum (some g0 :: rest) cur =
          if cum ≤ cur + 1 then some (0, g0)
          else (admitLoop cum rest (cur + 1)).map (fun p => (p.1 + 1, p.2)) := rfl
      by_cases hif : cum ≤ cur + 1
      · rw [hred, if_pos hif]
        constructor
        · intro h
          have h' : ((0 : Nat), g0) = (n, g) := Option.some.inj h
          rw [Prod.mk.injEq] at h'
          obtain ⟨h0, hgg⟩ := h'
          refine ⟨?_, ?_, ?_⟩
          · rw [← h0, List.getD_cons_zero, hgg]
          · rw [← h0]
            exact windowSuff_zero_cons_some g0 rest hif
          · intro m hm
            exact absurd hm (by omega)
        · rintro ⟨hget, hw, hmin⟩
          cases n with
          | zero =>
            rw [List.getD_cons_zero] at hget
            rw [Option.some.inj hget]
          | succ n' =>
            exact absurd (windowSuff_zero_cons_some g0 rest hif)
              (hmin 0 (Nat.succ_pos n'))
      · rw [hred, if_neg hif, Option.map_eq_some']
        constructor
        · rintro ⟨⟨n', g'⟩, hrec, heq⟩
          rw [Prod.mk.injEq] at heq
          obtain ⟨hn, hg⟩ := heq
          subst hn
          subst hg
          obtain ⟨hget, hw, hmin⟩ := (ih (cur + 1) n' g').mp hrec
          refine ⟨by simpa [List.getD_cons_succ] using hget, ?_, ?_⟩
          · exact (windowSuff_cons_some cum cur g0 rest (n' + 1) (by omega)).mpr
              (by simpa using hw)
          · intro m hm
            cases m with
            | zero =>
              intro hws
              exact absurd hws.1 (by omega)
            | succ m' =>
              intro hws
              have := (windowSuff_cons_some cum cur g0 rest (m' + 1) (by omega)).mp hws
              exact hmin m' (by omega) (by simpa using this)
        · rintro ⟨hget, hw, hmin⟩
          cases n with
          | zero => exact absurd hw.1 (by omega)
          | succ n' =>
            refine ⟨(n', g), ?_, by simp⟩
            apply (ih (cur + 1) n' g).mpr
            refine ⟨by simpa [List.getD_cons_succ] using hget, ?_, ?_⟩
            · have := (windowSuff_cons_some cum cur g0 rest (n' + 1) (by omega)).mp hw
              simpa using this
            · intro m' hm' hws
              apply hmin (m' + 1) (by omega)
              exact (windowSuff_cons_some cum cur g0 rest (m' + 1) (by omega)).mpr
                (by simpa using hws)
    | none =>
      have hred : admitLoop cum ((none : Option α) :: rest) cur =
          (admitLoop cum rest 0).map (fun p => (p.1 + 1, p.2)) := rfl
      rw [hred, Option.map_eq_some']
      constructor
      · rintro ⟨⟨n', g'⟩, hrec, heq⟩
        rw [Prod.mk.injEq] at heq
        obtain ⟨hn, hg⟩ := heq
        subst hn
        subst hg
        obtain ⟨hget, hw, hmin⟩ := (ih 0 n' g').mp hrec
        refine ⟨by simpa [List.getD_cons_succ] using hget, ?_, ?_⟩
        · exact (windowSuff_cons_none cum cur hk rest (n' + 1) (by omega)).mpr
            (by simpa using hw)
        · intro m hm
          cases m with
          | zero => exact windowSuff_zero_cons_none hk rest
          | succ m' =>
            intro hws
            have := (windowSuff_cons_none cum cur hk rest (m' + 1) (by omega)).mp hws
            exact hmin m' (by omega) (by simpa using this)
      · rintro ⟨hget, hw, hmin⟩
        cases n with
        | zero => exact absurd hw (windowSuff_zero_cons_none hk rest)
        | succ n' =>
          refine ⟨(n', g), ?_, by simp⟩
          apply (ih 0 n' g).mpr
          refine ⟨by simpa [List.getD_cons_succ] using hget, ?_, ?_⟩
          · have := (windowSuff_cons_none cum cur hk rest (n' + 1) (by omega)).mp hw
            simpa using this
          · intro m' hm' hws
            apply hmin (m' + 1) (by omega)
            exact (windowSuff_cons_none cum cur hk rest (m' + 1) (by omega)).mpr
              (by simpa using hws)

lemma wait_for_resource_eq_admitLoop (core_count memory_per_core gpu_percent
    cum_count : Nat) (snaps : List (List GPUInfo)) :
    ∀ cur_count,
      wait_for_resource core_count memory_per_core gpu_percent cum_count
          snaps cur_count =
        admitLoop cum_count
          (cycleResults core_count memory_per_core gpu_percent snaps) cur_count := by
  induction snaps with
  | nil => intro cur; rfl
  | cons snap rest ih =>
    intro cur
    have e : cycleResults core_count memory_per_core gpu_percent (snap :: rest) =
        check_resource_enough snap core_count memory_per_core gpu_percent ::
          cycleResults core_count memory_per_core gpu_percent rest := rfl
    rw [e]
    unfold wait_for_resource admitLoop
    cases h : check_resource_enough snap core_count memory_per_core gpu_percent <;>
      simp [h, ih]

/-- C1: for every sequence of sampling cycles (with `check_times ≥ 1`), the
admission loop returns candidate set `g` on cycle `n` (0-based) precisely
when cycle `n` is the first cycle completing a run of `check_times`
consecutive sufficient cycles — the window condition `windowSuff` requires
the counter to reach `check_times` at `n` with every cycle of the window
sufficient, so any insufficient cycle resets the run — and the returned set
is the candidate set of cycle `n` itself, the latest qualifying set.  With
`check_times = 2`, sufficiency on cycles 0 and 2 with an insufficient cycle 1
satisfies `windowSuff` at no cycle, so the loop never admits; with
`check_times = 3` the window is first complete exactly at the 3rd consecutive
sufficient cycle. -/
theorem wait_for_resource_debounce (core_count memory_per_core gpu_percent
    cum_count : Nat) (hk : 1 ≤ cum_count) (snaps : List (List GPUInfo))
    (n : Nat) (g : List String) :
    wait_for_resource core_count memory_per_core gpu_percent cum_count snaps 0 =
        some (n, g) ↔
      (cycleResults core_count memory_per_core gpu_percent snaps).getD n none =
          some g ∧
      windowSuff cum_count 0
        (cycleResults core_count memory_per_core gpu_percent snaps) n ∧
      ∀ m < n, ¬ windowSuff cum_count 0
        (cycleResults core_count memory_per_core gpu_percent snaps) m := by
  rw [wait_for_resource_eq_admitLoop]
  exact admitLoop_eq_some_iff hk
    (cycleResults core_count memory_per_core gpu_percent snaps) 0 n g

theorem wait_for_resource_debounce_witness :
    wait_for_resource 1 1 50 3 [[⟨100, 0, 10⟩], [⟨100, 0, 10⟩], [⟨100, 0, 10⟩]] 0 =
      some (2, ["0"]) :=
  (wait_for_resource_debounce 1 1 50 3 (by decide)
    [[⟨100, 0, 10⟩], [⟨100, 0, 10⟩], [⟨100, 0, 10⟩]] 2 ["0"]).mpr (by decide)
